import Mathlib

/-!
Verification of the jenkins-operator reconciliation core against its
natural-language specification.

The Lean definitions below are a shallow embedding of the Go sources:

* `pkg/controller/jenkins/jenkins_controller.go` (controller state machine,
  defaulting, completion stamping, top-level conflict handling),
* `pkg/controller/jenkins/configuration/user/reconcile.go` (seed-job retry
  mapping and scripted user configuration),
* `pkg/controller/jenkins/configuration/user/validate.go` (seed-job
  validation against the secret store),
* `pkg/controller/jenkins/configuration/base/validate.go` (base spec
  validation).

External collaborators (the Kubernetes client, the docker reference
grammar, the plugins package, the groovy/seed-job runners, the Go standard
library's PEM/PKCS1 parser) are modelled as parameters of an `Env` record:
each reconcile invocation is a pure function of the fetched object and the
outcomes those collaborators would report during the pass.
-/

namespace JenkinsOp

/-- Reference to a key inside a namespaced secret
(`seedJob.PrivateKey.SecretKeyRef` with fields `Name` and `Key`). -/
structure SecretKeyRef where
  name : String
  key : String
  deriving DecidableEq, Repr

/-- A seed-job declaration (`v1alpha1.SeedJob`): identifier, repository URL
and optional private-key reference. -/
structure SeedJob where
  id : String
  repositoryURL : String
  privateKeyRef : Option SecretKeyRef
  deriving DecidableEq, Repr

/-- The four resource request/limit entries inspected by `setDefaults`
(`Requests[cpu]`, `Requests[memory]`, `Limits[cpu]`, `Limits[memory]`);
`none` models an absent map entry. -/
structure ResourceRequirements where
  requestCPU : Option String
  requestMemory : Option String
  limitCPU : Option String
  limitMemory : Option String
  deriving DecidableEq, Repr

/-- The fields of `v1alpha1.JenkinsSpec` read by the embedded code.
Plugin maps are association lists root-plugin-token to dependent tokens. -/
structure JenkinsSpec where
  masterImage : String
  operatorPlugins : List (String × List String)
  plugins : List (String × List String)
  resources : ResourceRequirements
  seedJobs : List SeedJob
  deriving DecidableEq, Repr

/-- `v1alpha1.JenkinsStatus`: the two optional phase-completion timestamps
and the provisioning start time (times as abstract `Nat` instants). -/
structure JenkinsStatus where
  baseConfigurationCompletedTime : Option Nat
  userConfigurationCompletedTime : Option Nat
  provisionStartTime : Nat
  deriving DecidableEq, Repr

/-- The Jenkins custom resource: identity, spec and status. -/
structure Jenkins where
  ns : String
  name : String
  spec : JenkinsSpec
  status : JenkinsStatus
  deriving DecidableEq, Repr

/-- Result of a `client.Get` on a secret, as classified by the code:
success with the secret's data, a not-found error, or any other store
error (carrying its message). -/
inductive SecretGetResult where
  | found (data : List (String × String))
  | notFound
  | storeError (msg : String)
  deriving DecidableEq, Repr

/-- Whether a secret lookup outcome is a store failure other than
not-found (the only case `validateSeedJobs` escalates as an error). -/
def SecretGetResult.isStoreErr : SecretGetResult → Bool
  | .storeError _ => true
  | _ => false

/-- Whether the first character list starts the second one. -/
def charsLead : List Char → List Char → Bool
  | [], _ => true
  | _ :: _, [] => false
  | a :: as, b :: bs => a == b && charsLead as bs

/-- Whether the first character list occurs contiguously inside the second. -/
def charsWithin : List Char → List Char → Bool
  | pat, [] => pat.isEmpty
  | pat, b :: bs => charsLead pat (b :: bs) || charsWithin pat bs

/-- Go `strings.Contains s pat`. -/
def strContains (s pat : String) : Bool :=
  charsWithin pat.toList s.toList

/-- Go map indexing `data[key]` on a secret's data: the stored value, or
the zero value `""` when the key is absent. -/
def lookupData (data : List (String × String)) (k : String) : String :=
  match data.find? (fun p => p.fst == k) with
  | some p => p.snd
  | none => ""

/-- One iteration of the `validateSeedJobs` loop body
(`configuration/user/validate.go` lines 32-72) for a single seed job,
threading the accumulated `valid` flag.  `store` is the secret store
(`namespace → name → outcome`); `pk` abstracts `validatePrivateKey`
(lines 77-94: `pem.Decode` + `x509.ParsePKCS1PrivateKey` + `Validate`,
all Go standard library): `pk s = true` iff `validatePrivateKey s` would
return nil.  A store failure other than not-found aborts the whole
validation with that error; every semantic violation just clears `valid`
and scanning continues. -/
def seedJobStep (store : String → String → SecretGetResult) (pk : String → Bool)
    (ns : String) (sj : SeedJob) (valid : Bool) : Except String Bool :=
  let v1 := if sj.id.length == 0 then false else valid
  let v2 := if strContains sj.repositoryURL "git@" && sj.privateKeyRef.isNone then false else v1
  match sj.privateKeyRef with
  | none => .ok v2
  | some ref =>
    match store ns ref.name with
    | .storeError e => .error e
    | .notFound =>
      let key := lookupData [] ref.key
      let v4 := if key == "" then false else false
      let v5 := if pk key then v4 else false
      .ok v5
    | .found d =>
      let key := lookupData d ref.key
      let v4 := if key == "" then false else v2
      let v5 := if pk key then v4 else false
      .ok v5

/-- The `validateSeedJobs` loop over the whole declaration list. -/
def validateSeedJobsLoop (store : String → String → SecretGetResult) (pk : String → Bool)
    (ns : String) : List SeedJob → Bool → Except String Bool
  | [], valid => .ok valid
  | sj :: rest, valid =>
    match seedJobStep store pk ns sj valid with
    | .error e => .error e
    | .ok v => validateSeedJobsLoop store pk ns rest v

/-- `validateSeedJobs` (`configuration/user/validate.go` lines 29-75):
start with `valid = true`, scan every declaration, return the accumulated
verdict with a nil error unless a non-not-found store failure occurred. -/
def validateSeedJobs (store : String → String → SecretGetResult) (pk : String → Bool)
    (j : Jenkins) : Except String Bool :=
  validateSeedJobsLoop store pk j.ns j.spec.seedJobs true

/-- User-configuration `Validate` (`configuration/user/validate.go`
lines 20-27): forwards `validateSeedJobs`' verdict and error. -/
def userValidate (store : String → String → SecretGetResult) (pk : String → Bool)
    (j : Jenkins) : Except String Bool :=
  match validateSeedJobs store pk j with
  | .error e => .error e
  | .ok v => if !v then .ok v else .ok true

/-- Errors crossing collaborator boundaries, classified the way
`apierrors.IsConflict` classifies them at the top of `Reconcile`
(`jenkins_controller.go` lines 109-119): a resource-version conflict or
anything else, each carrying its message.  Wrapping with
`errors.WithStack` keeps the classification (the wrapper only adds a
stack trace and `IsConflict` is specified to see through it). -/
inductive GoErr where
  | conflict (msg : String)
  | other (msg : String)
  deriving DecidableEq, Repr

/-- Whether an error is a resource-version conflict (`apierrors.IsConflict`). -/
def GoErr.isConflict : GoErr → Bool
  | .conflict _ => true
  | .other _ => false

/-- The message carried by an error (`err.Error()`). -/
def GoErr.message : GoErr → String
  | .conflict m => m
  | .other m => m

/-- Outcome of the initial `client.Get` of the Jenkins object. -/
inductive GetOutcome where
  | success
  | notFound
  | failure (e : GoErr)
  deriving DecidableEq, Repr

/-- Outcome of a `client.Update` call. -/
inductive UpdateOutcome where
  | success
  | conflict (msg : String)
  | otherError (msg : String)
  deriving DecidableEq, Repr

/-- `reconcile.Result`: the requeue flag and the `RequeueAfter` delay in
seconds (`time.Second * 10` is written as `10`; the zero value is `0`). -/
structure RResult where
  requeue : Bool
  requeueAfterSec : Nat
  deriving DecidableEq, Repr

/-- Outcome of the delegated `seedJobs.EnsureSeedJobs(jenkins)` call:
either a nil error with the `done` flag, or one of the two sentinel
errors `jobs.ErrorBuildFailed` / `jobs.ErrorUnrecoverableBuildFailed`,
or any other (infrastructure) error. -/
inductive EnsureSeedJobsOutcome where
  | ok (done : Bool)
  | errBuildFailed
  | errUnrecoverable
  | errOther (msg : String)
  deriving DecidableEq, Repr

/-- Notification severity (`event.TypeNormal` / `event.TypeWarning`). -/
inductive Severity where
  | normal
  | warning
  deriving DecidableEq, Repr

/-- A notification emitted through `r.events.Emit`. -/
structure Event where
  severity : Severity
  reason : String
  message : String
  deriving DecidableEq, Repr

/-- The six reconcile phases named by the specification's ordering
guarantee; a pass records the phases it starts, in order. -/
inductive Phase where
  | fetch
  | defaults
  | validateBase
  | provisionBase
  | validateUser
  | provisionUser
  deriving DecidableEq, Repr

/-- The collaborator outcomes a single reconcile invocation can observe.
Every external call of the pass appears as one field; the pass itself is
then a pure function of the fetched object and this record. -/
structure Env where
  get : GetOutcome
  defaultsUpdate : UpdateOutcome
  imageRegexOk : String → Bool
  validatePluginsOk : List (String × List String) → List (String × List String) → Bool
  baseReconcile : Except GoErr RResult
  now : Nat
  statusUpdateBase : UpdateOutcome
  statusUpdateUser : UpdateOutcome
  secretStore : String → String → SecretGetResult
  pkOracle : String → Bool
  ensureOutcome : EnsureSeedJobsOutcome
  groovyConfigure : Option GoErr
  configMapGet : Except GoErr (List (String × String))
  groovyEnsure : List (String × String) → Except GoErr Bool

/-- Everything a single inner `reconcile` pass produces: the returned
result and error, the notifications emitted, the phases started (in
order), and the cluster's Jenkins object after the pass's updates. -/
structure ROut where
  result : RResult
  error : Option GoErr
  events : List Event
  phases : List Phase
  obj : Jenkins
  deriving DecidableEq, Repr

/-- Event reason for a completed base configuration
(`jenkins_controller.go` line 32). -/
def reasonBaseConfigurationSuccess : String := "BaseConfigurationSuccess"

/-- Event reason used when the user configuration completes
(`jenkins_controller.go` line 34): the constant's value really is the
string `BaseConfigurationFailure`. -/
def reasonUserConfigurationSuccess : String := "BaseConfigurationFailure"

/-- Event reason for a failed CR validation (`jenkins_controller.go`
line 36). -/
def reasonCRValidationFailure : String := "CRValidationFailure"

/-- Modelled from the spec: `constants.DefaultJenkinsMasterImage` (the
`constants` package is not under `src/`); the spec only requires a
documented, well-formed default image reference. -/
def defaultJenkinsMasterImage : String := "jenkins/jenkins:lts"

/-- Modelled from the spec: the operator-managed default plugin set
returned by `plugins.BasePlugins()` (the `plugins` package is not under
`src/`).  The claims only depend on the defaulted set being non-empty,
not on its contents. -/
def basePlugins : List (String × List String) :=
  [("kubernetes:1.14.0", []), ("workflow-job:2.31", [])]

/-- The resource requirements `setDefaults` installs when any of the four
entries is missing (`jenkins_controller.go` lines 238-247). -/
def defaultResources : ResourceRequirements :=
  ⟨some "1", some "500Mi", some "1500m", some "3Gi"⟩

/-- The pure part of `setDefaults` (`jenkins_controller.go` lines
215-254): the defaulted spec together with the `changed` flag that
decides whether an update is persisted. -/
def setDefaultsSpec (s : JenkinsSpec) : JenkinsSpec × Bool :=
  let imageStep := if s.masterImage.length == 0 then (defaultJenkinsMasterImage, true) else (s.masterImage, false)
  let opStep := if s.operatorPlugins.length == 0 then (basePlugins, true) else (s.operatorPlugins, false)
  let plStep := if s.plugins.length == 0 then ([("simple-theme-plugin:0.5.1", ([] : List String))], true) else (s.plugins, false)
  let allSet := s.resources.requestCPU.isSome && s.resources.requestMemory.isSome
    && s.resources.limitCPU.isSome && s.resources.limitMemory.isSome
  let resStep := if !allSet then (defaultResources, true) else (s.resources, false)
  (⟨imageStep.1, opStep.1, plStep.1, resStep.1, s.seedJobs⟩,
    imageStep.2 || opStep.2 || plStep.2 || resStep.2)

/-- Base-configuration `Validate` (`configuration/base/validate.go` lines
19-36): empty image invalid; otherwise the image must match one of the
two docker reference grammars (external `docker/distribution` regexps,
abstracted by `env.imageRegexOk` as their disjunction); finally the two
plugin maps must pass `validatePlugins` (external `plugins` package,
abstracted by `env.validatePluginsOk`). -/
def baseValidate (env : Env) (s : JenkinsSpec) : Bool :=
  if s.masterImage == "" then false
  else if !(env.imageRegexOk s.masterImage) then false
  else env.validatePluginsOk s.operatorPlugins s.plugins

/-- The completion-stamping step shared by both phases
(`jenkins_controller.go` lines 164-174 and 196-206): if the timestamp is
already set, nothing happens and nothing fires; otherwise the current
time is stamped, persisted via `client.Update`, and only on a successful
persist the single success notification is emitted.  Returns the stored
timestamp, the notifications emitted, and the did-fire flag. -/
def stampPhase (ts : Option Nat) (now : Nat) (upd : UpdateOutcome)
    (reason msg : String) : Except GoErr (Option Nat × List Event × Bool) :=
  match ts with
  | some t => .ok (some t, [], false)
  | none =>
    match upd with
    | .success => .ok (some now, [⟨Severity.normal, reason, msg⟩], true)
    | .conflict m => .error (GoErr.conflict m)
    | .otherError m => .error (GoErr.other m)

/-- `ensureSeedJobs` (`configuration/user/reconcile.go` lines 64-84):
classify the delegated ensure outcome into the control decision —
recoverable build failure and a pending build requeue after 10 seconds
with nil error, an unrecoverable build failure yields an empty result
with nil error, any other error propagates, and done yields an empty
result. -/
def ensureSeedJobs (o : EnsureSeedJobsOutcome) : Except GoErr RResult :=
  match o with
  | .errBuildFailed => .ok ⟨true, 10⟩
  | .errUnrecoverable => .ok ⟨false, 0⟩
  | .errOther m => .error (GoErr.other m)
  | .ok done => if !done then .ok ⟨true, 10⟩ else .ok ⟨false, 0⟩

/-- `ensureUserConfiguration` (`configuration/user/reconcile.go` lines
86-111): configure the groovy job, read the user-configuration config
map, ensure the groovy job; a not-yet-done job requeues after 10
seconds. -/
def ensureUserConfiguration (env : Env) : Except GoErr RResult :=
  match env.groovyConfigure with
  | some e => .error e
  | none =>
    match env.configMapGet with
    | .error e => .error e
    | .ok data =>
      match env.groovyEnsure data with
      | .error e => .error e
      | .ok done => if !done then .ok ⟨true, 10⟩ else .ok ⟨false, 0⟩

/-- User-configuration `Reconcile` (`configuration/user/reconcile.go`
lines 43-62): seed jobs first, then — only when they report neither an
error nor a requeue — the scripted configuration.  The boolean records
whether the scripted-configuration step was reached. -/
def userReconcile (env : Env) : Except GoErr RResult × Bool :=
  match ensureSeedJobs env.ensureOutcome with
  | .error e => (.error e, false)
  | .ok r =>
    if r.requeue then (.ok r, false)
    else
      (match ensureUserConfiguration env with
       | .error e => .error e
       | .ok r2 => if r2.requeue then .ok r2 else .ok ⟨false, 0⟩, true)

/-- Steps 6-7 of the inner reconcile (`jenkins_controller.go` lines
188-206): run the user provisioner, short-circuit on error or requeue,
then stamp the user completion timestamp once. -/
def stageProvisionUser (c : Jenkins) (env : Env) : ROut :=
  match (userReconcile env).1 with
  | .error e => ⟨⟨false, 0⟩, some e, [], [Phase.provisionUser], c⟩
  | .ok r =>
    if r.requeue then ⟨r, none, [], [Phase.provisionUser], c⟩
    else
      match stampPhase c.status.userConfigurationCompletedTime env.now env.statusUpdateUser
          reasonUserConfigurationSuccess "User configuration completed" with
      | .error e => ⟨⟨false, 0⟩, some e, [], [Phase.provisionUser], c⟩
      | .ok (ts, evs, _) =>
        ⟨⟨false, 0⟩, none, evs, [Phase.provisionUser],
          { c with status := { c.status with userConfigurationCompletedTime := ts } }⟩

/-- Step 5 of the inner reconcile (`jenkins_controller.go` lines
178-186): user validation; invalid emits the warning notification and
terminates the pass without requeue. -/
def stageValidateUser (c : Jenkins) (env : Env) : ROut :=
  match userValidate env.secretStore env.pkOracle c with
  | .error e => ⟨⟨false, 0⟩, some (GoErr.other e), [], [Phase.validateUser], c⟩
  | .ok false =>
    ⟨⟨false, 0⟩, none, [⟨Severity.warning, reasonCRValidationFailure, "User CR validation failed"⟩],
      [Phase.validateUser], c⟩
  | .ok true =>
    let o := stageProvisionUser c env
    { o with phases := Phase.validateUser :: o.phases }

/-- Step 4 of the inner reconcile (`jenkins_controller.go` lines
156-174): base provisioning, short-circuiting on error or requeue, then
the once-only base completion stamp. -/
def stageProvisionBase (c : Jenkins) (env : Env) : ROut :=
  match env.baseReconcile with
  | .error e => ⟨⟨false, 0⟩, some e, [], [Phase.provisionBase], c⟩
  | .ok r =>
    if r.requeue then ⟨r, none, [], [Phase.provisionBase], c⟩
    else
      match stampPhase c.status.baseConfigurationCompletedTime env.now env.statusUpdateBase
          reasonBaseConfigurationSuccess "Base configuration completed" with
      | .error e => ⟨⟨false, 0⟩, some e, [], [Phase.provisionBase], c⟩
      | .ok (ts, evs, _) =>
        let c2 := { c with status := { c.status with baseConfigurationCompletedTime := ts } }
        let o := stageValidateUser c2 env
        { o with events := evs ++ o.events, phases := Phase.provisionBase :: o.phases }

/-- Step 3 of the inner reconcile (`jenkins_controller.go` lines
146-154): base validation; invalid emits the warning notification and
terminates without requeue. -/
def stageValidateBase (c : Jenkins) (env : Env) : ROut :=
  if baseValidate env c.spec then
    let o := stageProvisionBase c env
    { o with phases := Phase.validateBase :: o.phases }
  else
    ⟨⟨false, 0⟩, none, [⟨Severity.warning, reasonCRValidationFailure, "Base CR validation failed"⟩],
      [Phase.validateBase], c⟩

/-- Step 2 of the inner reconcile (`jenkins_controller.go` lines
138-141 with `setDefaults`): default the spec, persist when changed, and
abort the pass with the update's error when the persist fails. -/
def stageDefaults (c : Jenkins) (env : Env) : ROut :=
  let sd := setDefaultsSpec c.spec
  let c2 := { c with spec := sd.1 }
  if sd.2 then
    match env.defaultsUpdate with
    | .success =>
      let o := stageValidateBase c2 env
      { o with phases := Phase.defaults :: o.phases }
    | .conflict m => ⟨⟨false, 0⟩, some (GoErr.conflict m), [], [Phase.defaults], c⟩
    | .otherError m => ⟨⟨false, 0⟩, some (GoErr.other m), [], [Phase.defaults], c⟩
  else
    let o := stageValidateBase c2 env
    { o with phases := Phase.defaults :: o.phases }

/-- The inner reconcile pass (`jenkins_controller.go` lines 123-209),
starting from the fetch: not-found terminates done with no error, a
fetch failure propagates, success runs the remaining phases in order. -/
def reconcile (c : Jenkins) (env : Env) : ROut :=
  match env.get with
  | .notFound => ⟨⟨false, 0⟩, none, [], [Phase.fetch], c⟩
  | .failure e => ⟨⟨false, 0⟩, some e, [], [Phase.fetch], c⟩
  | .success =>
    let o := stageDefaults c env
    { o with phases := Phase.fetch :: o.phases }

/-- Everything the exported `Reconcile` produces: result, returned error
and the log lines it writes itself. -/
structure TopOut where
  result : RResult
  error : Option GoErr
  logs : List String
  events : List Event
  phases : List Phase
  obj : Jenkins
  deriving DecidableEq, Repr

/-- The exported `Reconcile` (`jenkins_controller.go` lines 104-121): a
conflict from the inner pass is logged (just the error's message, at
warn verbosity) and turned into an immediate requeue with nil error; any
other inner error is logged with the `Reconcile loop failed` wording and
also turned into an immediate requeue with nil error; otherwise the
inner result passes through. -/
def topReconcile (c : Jenkins) (env : Env) : TopOut :=
  let o := reconcile c env
  match o.error with
  | some e =>
    if e.isConflict then ⟨⟨true, 0⟩, none, [e.message], o.events, o.phases, o.obj⟩
    else ⟨⟨true, 0⟩, none, ["Reconcile loop failed: " ++ e.message], o.events, o.phases, o.obj⟩
  | none => ⟨o.result, none, [], o.events, o.phases, o.obj⟩

/-- Iterated reconcile invocations against an unchanged environment: the
cluster object produced by each pass feeds the next one. -/
def reconcileIter (env : Env) : Nat → Jenkins → Jenkins
  | 0, c => c
  | n + 1, c => reconcileIter env n (reconcile c env).obj

/-- Whether the secret store answers this seed job's lookup (if any)
without a non-not-found failure; under this condition validation never
escalates an error for the job. -/
def sjStoreOk (store : String → String → SecretGetResult) (ns : String) (sj : SeedJob) : Bool :=
  match sj.privateKeyRef with
  | none => true
  | some ref => !(store ns ref.name).isStoreErr

/-- The per-declaration validity predicate, written from the
specification's words (spec §3 and §5.4): non-empty identifier, a
private-key reference whenever the repository URL contains the `git@`
marker, and any present reference must resolve to an existing secret
whose named key is non-empty and passes the private-key check. -/
def seedJobOk (store : String → String → SecretGetResult) (pk : String → Bool)
    (ns : String) (sj : SeedJob) : Bool :=
  (sj.id.length != 0)
  && !(strContains sj.repositoryURL "git@" && sj.privateKeyRef.isNone)
  && (match sj.privateKeyRef with
      | none => true
      | some ref =>
        match store ns ref.name with
        | .found d => (lookupData d ref.key != "") && pk (lookupData d ref.key)
        | _ => false)

/-- Number of emitted notifications carrying a given reason code. -/
def countReason (evs : List Event) (r : String) : Nat :=
  (evs.filter (fun e => e.reason == r)).length

/-- The canonical phase order stated by the specification. -/
def phaseOrder : List Phase :=
  [Phase.fetch, Phase.defaults, Phase.validateBase, Phase.provisionBase,
   Phase.validateUser, Phase.provisionUser]

/-- Whether the first list is an initial segment of the second. -/
def initialSegOf : List Phase → List Phase → Bool
  | [], _ => true
  | _ :: _, [] => false
  | a :: as, b :: bs => if a = b then initialSegOf as bs else false

theorem initialSegOf_cons (a : Phase) {l t : List Phase} (h : initialSegOf l t = true) :
    initialSegOf (a :: l) (a :: t) = true := by
  simp [initialSegOf, h]

/-- A `seedJobStep` call can only fail with the store's own non-not-found
error on the job's private-key secret. -/
theorem seedJobStep_error {store : String → String → SecretGetResult} {pk : String → Bool}
    {ns : String} {sj : SeedJob} {valid : Bool} {e : String}
    (h : seedJobStep store pk ns sj valid = .error e) :
    ∃ ref, sj.privateKeyRef = some ref ∧ store ns ref.name = .storeError e := by
  unfold seedJobStep at h
  rcases href : sj.privateKeyRef with _ | ref <;> simp only [href] at h
  · exact absurd h (by simp)
  · rcases hst : store ns ref.name with d | _ | m <;> simp only [hst] at h
    · exact absurd h (by simp)
    · exact absurd h (by simp)
    · refine ⟨ref, rfl, ?_⟩
      rw [hst]
      cases h
      rfl

/-- When the store answers without a hard failure, one loop iteration
conjoins the per-declaration verdict onto the accumulator. -/
theorem seedJobStep_eq_ok (store : String → String → SecretGetResult) (pk : String → Bool)
    (ns : String) (sj : SeedJob) (valid : Bool) (h : sjStoreOk store ns sj = true) :
    seedJobStep store pk ns sj valid = .ok (valid && seedJobOk store pk ns sj) := by
  unfold sjStoreOk at h
  unfold seedJobStep seedJobOk
  rcases href : sj.privateKeyRef with _ | ref <;> simp only [href]
  · rcases hid : (sj.id.length == 0) <;>
      rcases hgit : strContains sj.repositoryURL "git@" <;>
      cases valid <;>
      simp_all [Option.isNone]
  · rw [href] at h
    simp only at h
    rcases hst : store ns ref.name with d | _ | m
    · rcases hid : (sj.id.length == 0) <;>
        rcases hgit : strContains sj.repositoryURL "git@" <;>
        rcases hkey : (lookupData d ref.key == "") <;>
        rcases hpk : pk (lookupData d ref.key) <;>
        cases valid <;>
        simp_all [Option.isNone]
    · rcases hpk : pk (lookupData [] ref.key) <;> cases valid <;> simp_all [Option.isNone]
    · rw [hst] at h
      simp [SecretGetResult.isStoreErr] at h

/-- The `validateSeedJobs` loop computes the conjunction of all
per-declaration verdicts when the store never hard-fails, evaluating
every declaration. -/
theorem validateSeedJobsLoop_eq_ok (store : String → String → SecretGetResult)
    (pk : String → Bool) (ns : String) (l : List SeedJob) (valid : Bool)
    (h : l.all (sjStoreOk store ns) = true) :
    validateSeedJobsLoop store pk ns l valid = .ok (valid && l.all (seedJobOk store pk ns)) := by
  induction l generalizing valid with
  | nil => simp [validateSeedJobsLoop]
  | cons sj rest ih =>
    rw [List.all_cons, Bool.and_eq_true] at h
    simp [validateSeedJobsLoop, seedJobStep_eq_ok store pk ns sj valid h.1, ih _ h.2,
      Bool.and_assoc]

/-- The loop fails only when the store hard-fails on some declaration's
private-key secret, and it reports exactly that error. -/
theorem validateSeedJobsLoop_error {store : String → String → SecretGetResult}
    {pk : String → Bool} {ns : String} {l : List SeedJob} {valid : Bool} {e : String}
    (h : validateSeedJobsLoop store pk ns l valid = .error e) :
    ∃ sj ∈ l, ∃ ref, sj.privateKeyRef = some ref ∧ store ns ref.name = .storeError e := by
  induction l generalizing valid with
  | nil => exact absurd h (by simp [validateSeedJobsLoop])
  | cons sj rest ih =>
    rw [validateSeedJobsLoop] at h
    rcases hs : seedJobStep store pk ns sj valid with e' | v
    · rw [hs] at h
      cases h
      obtain ⟨ref, h1, h2⟩ := seedJobStep_error hs
      exact ⟨sj, List.mem_cons_self sj rest, ref, h1, h2⟩
    · rw [hs] at h
      obtain ⟨sj', hmem, ref, h1, h2⟩ := ih h
      exact ⟨sj', List.mem_cons_of_mem sj hmem, ref, h1, h2⟩

/-- A fully defaulted sample spec (all fields set, no seed jobs). -/
def sampleSpec : JenkinsSpec :=
  { masterImage := "jenkins/jenkins:lts",
    operatorPlugins := [("credentials:2.1.18", [])],
    plugins := [("simple-theme-plugin:0.5.1", [])],
    resources := defaultResources,
    seedJobs := [] }

/-- A sample Jenkins object with the given completion timestamps. -/
def sampleJenkins (bts uts : Option Nat) : Jenkins :=
  { ns := "default", name := "example", spec := sampleSpec,
    status := { baseConfigurationCompletedTime := bts,
                userConfigurationCompletedTime := uts,
                provisionStartTime := 0 } }

/-- An environment in which every collaborator call succeeds and every
step completes at once. -/
def happyEnv : Env :=
  { get := .success, defaultsUpdate := .success,
    imageRegexOk := fun _ => true, validatePluginsOk := fun _ _ => true,
    baseReconcile := .ok ⟨false, 0⟩, now := 7,
    statusUpdateBase := .success, statusUpdateUser := .success,
    secretStore := fun _ _ => .notFound, pkOracle := fun _ => false,
    ensureOutcome := .ok true, groovyConfigure := none,
    configMapGet := .ok [], groovyEnsure := fun _ => .ok true }

/-- The hypotheses under which a pass reaches the base completion stamp:
the fetch succeeds, the spec needs no defaulting, base validation
passes, and base provisioning reports neither error nor requeue. -/
def ReachesBaseStamp (c : Jenkins) (env : Env) : Prop :=
  env.get = .success ∧ (setDefaultsSpec c.spec).2 = false ∧
    baseValidate env c.spec = true ∧
    ∃ rb, env.baseReconcile = .ok rb ∧ rb.requeue = false

/-- A spec that `setDefaults` leaves unchanged is returned as-is. -/
theorem setDefaults_unchanged {s : JenkinsSpec} (h : (setDefaultsSpec s).2 = false) :
    (setDefaultsSpec s).1 = s := by
  unfold setDefaultsSpec at *
  rcases h1 : (s.masterImage.length == 0) <;>
    rcases h2 : (s.operatorPlugins.length == 0) <;>
    rcases h3 : (s.plugins.length == 0) <;>
    rcases h4 : (s.resources.requestCPU.isSome && s.resources.requestMemory.isSome
      && s.resources.limitCPU.isSome && s.resources.limitMemory.isSome) <;>
    simp_all

/-- The notifications coming out of a completion stamp are either none or
exactly the one success notification with the given reason. -/
theorem stampPhase_events {ts : Option Nat} {now : Nat} {upd : UpdateOutcome}
    {r m : String} {ts' : Option Nat} {evs : List Event} {f : Bool}
    (h : stampPhase ts now upd r m = .ok (ts', evs, f)) :
    evs = [] ∨ evs = [⟨Severity.normal, r, m⟩] := by
  unfold stampPhase at h
  rcases ts with _ | t
  · rcases upd with _ | u | u <;> simp_all
  · simp_all

/-- The user-provisioning stage never touches the base completion
timestamp. -/
theorem stageProvisionUser_obj_base (c : Jenkins) (env : Env) :
    (stageProvisionUser c env).obj.status.baseConfigurationCompletedTime
      = c.status.baseConfigurationCompletedTime := by
  unfold stageProvisionUser
  rcases (userReconcile env).1 with e | r
  · rfl
  · rcases hr : r.requeue
    · simp only [hr, Bool.false_eq_true, if_false]
      rcases hst : stampPhase c.status.userConfigurationCompletedTime env.now
          env.statusUpdateUser reasonUserConfigurationSuccess "User configuration completed"
        with e | ⟨ts, evs, f⟩
      · rfl
      · rfl
    · simp [hr]

/-- The user-validation stage never touches the base completion
timestamp. -/
theorem stageValidateUser_obj_base (c : Jenkins) (env : Env) :
    (stageValidateUser c env).obj.status.baseConfigurationCompletedTime
      = c.status.baseConfigurationCompletedTime := by
  unfold stageValidateUser
  rcases userValidate env.secretStore env.pkOracle c with e | v
  · rfl
  · rcases v
    · rfl
    · simpa using stageProvisionUser_obj_base c env

/-- No notification emitted after the base stamp carries the
base-configuration success reason. -/
theorem stageProvisionUser_count_base (c : Jenkins) (env : Env) :
    countReason (stageProvisionUser c env).events reasonBaseConfigurationSuccess = 0 := by
  unfold stageProvisionUser
  rcases (userReconcile env).1 with e | r
  · rfl
  · rcases hr : r.requeue
    · simp only [hr, Bool.false_eq_true, if_false]
      rcases hst : stampPhase c.status.userConfigurationCompletedTime env.now
          env.statusUpdateUser reasonUserConfigurationSuccess "User configuration completed"
        with e | ⟨ts, evs, f⟩
      · rfl
      · rcases stampPhase_events hst with h | h <;> subst h
        · simp [countReason]
        · simp [countReason]
          decide
    · simp [hr, countReason]

/-- No notification emitted by user validation or user provisioning
carries the base-configuration success reason. -/
theorem stageValidateUser_count_base (c : Jenkins) (env : Env) :
    countReason (stageValidateUser c env).events reasonBaseConfigurationSuccess = 0 := by
  unfold stageValidateUser
  rcases userValidate env.secretStore env.pkOracle c with e | v
  · rfl
  · rcases v
    · simp [countReason]; decide
    · simpa using stageProvisionUser_count_base c env

/-- Under the reach hypotheses, the whole pass is the base-provisioning
stage with the first three phases recorded in front. -/
theorem reconcile_reach (c : Jenkins) (env : Env) (h1 : env.get = .success)
    (h2 : (setDefaultsSpec c.spec).2 = false) (h3 : baseValidate env c.spec = true) :
    reconcile c env =
      { stageProvisionBase c env with
        phases := Phase.fetch :: Phase.defaults :: Phase.validateBase ::
          (stageProvisionBase c env).phases } := by
  have hs := setDefaults_unchanged h2
  have hc : ({ c with spec := (setDefaultsSpec c.spec).1 } : Jenkins) = c := by
    rw [hs]
  unfold reconcile
  rw [h1]
  unfold stageDefaults
  simp only [h2, Bool.false_eq_true, if_false]
  unfold stageValidateBase
  rw [hc, h3]
  simp

/-- The user-provisioning stage records exactly its own phase. -/
theorem stageProvisionUser_phases (c : Jenkins) (env : Env) :
    (stageProvisionUser c env).phases = [Phase.provisionUser] := by
  unfold stageProvisionUser
  rcases (userReconcile env).1 with e | r
  · rfl
  · rcases hr : r.requeue
    · simp only [hr, Bool.false_eq_true, if_false]
      rcases stampPhase c.status.userConfigurationCompletedTime env.now
          env.statusUpdateUser reasonUserConfigurationSuccess "User configuration completed"
        with e | ⟨ts, evs, f⟩ <;> rfl
    · simp [hr]

/-- The user-validation stage records an initial segment of its phase
followed by user provisioning. -/
theorem stageValidateUser_seg (c : Jenkins) (env : Env) :
    initialSegOf (stageValidateUser c env).phases [Phase.validateUser, Phase.provisionUser] = true := by
  unfold stageValidateUser
  rcases userValidate env.secretStore env.pkOracle c with e | v
  · rfl
  · rcases v
    · rfl
    · simp [stageProvisionUser_phases, initialSegOf]

/-- The base-provisioning stage records an initial segment of the last
three phases. -/
theorem stageProvisionBase_seg (c : Jenkins) (env : Env) :
    initialSegOf (stageProvisionBase c env).phases
      [Phase.provisionBase, Phase.validateUser, Phase.provisionUser] = true := by
  unfold stageProvisionBase
  rcases env.baseReconcile with e | r
  · rfl
  · rcases hr : r.requeue
    · simp only [hr, Bool.false_eq_true, if_false]
      rcases stampPhase c.status.baseConfigurationCompletedTime env.now
          env.statusUpdateBase reasonBaseConfigurationSuccess "Base configuration completed"
        with e | ⟨ts, evs, f⟩
      · rfl
      · exact initialSegOf_cons Phase.provisionBase (stageValidateUser_seg _ env)
    · simp only [hr, if_true]
      decide

/-- The base-validation stage records an initial segment of the last four
phases. -/
theorem stageValidateBase_seg (c : Jenkins) (env : Env) :
    initialSegOf (stageValidateBase c env).phases
      [Phase.validateBase, Phase.provisionBase, Phase.validateUser, Phase.provisionUser] = true := by
  unfold stageValidateBase
  rcases hv : baseValidate env c.spec
  · simp [hv, initialSegOf]
  · simp only [hv, if_true]
    exact initialSegOf_cons Phase.validateBase (stageProvisionBase_seg c env)

/-- The defaulting stage records an initial segment of the last five
phases. -/
theorem stageDefaults_seg (c : Jenkins) (env : Env) :
    initialSegOf (stageDefaults c env).phases
      [Phase.defaults, Phase.validateBase, Phase.provisionBase, Phase.validateUser,
        Phase.provisionUser] = true := by
  unfold stageDefaults
  rcases hch : (setDefaultsSpec c.spec).2
  · simp only [hch, Bool.false_eq_true, if_false]
    exact initialSegOf_cons Phase.defaults (stageValidateBase_seg _ env)
  · simp only [hch, if_true]
    rcases env.defaultsUpdate with _ | m | m
    · exact initialSegOf_cons Phase.defaults (stageValidateBase_seg _ env)
    · rfl
    · rfl

/-- If the user phases appear in the base-provisioning stage's trace, the
base provisioner reported neither error nor requeue. -/
theorem stageProvisionBase_mem (c : Jenkins) (env : Env)
    (h : Phase.validateUser ∈ (stageProvisionBase c env).phases ∨
      Phase.provisionUser ∈ (stageProvisionBase c env).phases) :
    ∃ rb, env.baseReconcile = .ok rb ∧ rb.requeue = false := by
  rcases hbr : env.baseReconcile with e | r
  · unfold stageProvisionBase at h
    rw [hbr] at h
    simp at h
  · rcases hr : r.requeue
    · exact ⟨r, rfl, hr⟩
    · unfold stageProvisionBase at h
      rw [hbr] at h
      simp [hr] at h

/-- If the user phases appear in the base-validation stage's trace, base
validation passed and base provisioning completed without requeue. -/
theorem stageValidateBase_mem (c : Jenkins) (env : Env)
    (h : Phase.validateUser ∈ (stageValidateBase c env).phases ∨
      Phase.provisionUser ∈ (stageValidateBase c env).phases) :
    baseValidate env c.spec = true ∧
      ∃ rb, env.baseReconcile = .ok rb ∧ rb.requeue = false := by
  unfold stageValidateBase at h
  rcases hv : baseValidate env c.spec
  · rw [hv] at h
    simp at h
  · rw [hv] at h
    simp only [if_true, List.mem_cons] at h
    refine ⟨rfl, stageProvisionBase_mem c env ?_⟩
    rcases h with (h | h) | (h | h)
    · exact absurd h (by decide)
    · exact Or.inl h
    · exact absurd h (by decide)
    · exact Or.inr h

/-- If the user phases appear in the defaulting stage's trace, any needed
defaults persist succeeded and the base preconditions hold. -/
theorem stageDefaults_mem (c : Jenkins) (env : Env)
    (h : Phase.validateUser ∈ (stageDefaults c env).phases ∨
      Phase.provisionUser ∈ (stageDefaults c env).phases) :
    ((setDefaultsSpec c.spec).2 = true → env.defaultsUpdate = .success) ∧
      baseValidate env (setDefaultsSpec c.spec).1 = true ∧
      ∃ rb, env.baseReconcile = .ok rb ∧ rb.requeue = false := by
  unfold stageDefaults at h
  rcases hch : (setDefaultsSpec c.spec).2
  · simp only [hch, Bool.false_eq_true, if_false, List.mem_cons] at h
    have h' : Phase.validateUser ∈ (stageValidateBase { c with spec := (setDefaultsSpec c.spec).1 } env).phases ∨
        Phase.provisionUser ∈ (stageValidateBase { c with spec := (setDefaultsSpec c.spec).1 } env).phases := by
      rcases h with (h | h) | (h | h)
      · exact absurd h (by decide)
      · exact Or.inl h
      · exact absurd h (by decide)
      · exact Or.inr h
    have hb := stageValidateBase_mem _ env h'
    exact ⟨fun hcc => absurd hcc (by simp [hch]), hb.1, hb.2⟩
  · simp only [hch, if_true] at h
    rcases hu : env.defaultsUpdate with _ | m | m <;> simp only [hu, List.mem_cons] at h
    · have h' : Phase.validateUser ∈ (stageValidateBase { c with spec := (setDefaultsSpec c.spec).1 } env).phases ∨
          Phase.provisionUser ∈ (stageValidateBase { c with spec := (setDefaultsSpec c.spec).1 } env).phases := by
        rcases h with (h | h) | (h | h)
        · exact absurd h (by decide)
        · exact Or.inl h
        · exact absurd h (by decide)
        · exact Or.inr h
      have hb := stageValidateBase_mem _ env h'
      exact ⟨fun _ => rfl, hb.1, hb.2⟩
    · rcases h with (h | h) | (h | h) <;> simp at h
    · rcases h with (h | h) | (h | h) <;> simp at h

/-- A full pass that reaches a completed user provisioner: on first user
completion it stamps, persists and emits the single user success
notification; on a re-entry with the user phase already stamped it is a
no-op pass with no notifications. -/
theorem reconcile_user_done (c : Jenkins) (env : Env) (rb : RResult) (tb : Nat)
    (h1 : env.get = .success) (h2 : (setDefaultsSpec c.spec).2 = false)
    (h3 : baseValidate env c.spec = true)
    (h4 : env.baseReconcile = .ok rb) (h5 : rb.requeue = false)
    (htb : c.status.baseConfigurationCompletedTime = some tb)
    (huv : userValidate env.secretStore env.pkOracle c = .ok true)
    (hur : (userReconcile env).1 = .ok ⟨false, 0⟩) :
    (c.status.userConfigurationCompletedTime = none → env.statusUpdateUser = .success →
      reconcile c env =
        ⟨⟨false, 0⟩, none,
          [⟨Severity.normal, reasonUserConfigurationSuccess, "User configuration completed"⟩],
          phaseOrder,
          { c with status := { c.status with userConfigurationCompletedTime := some env.now } }⟩) ∧
    (∀ tu, c.status.userConfigurationCompletedTime = some tu →
      reconcile c env = ⟨⟨false, 0⟩, none, [], phaseOrder, c⟩) := by
  have hrec := reconcile_reach c env h1 h2 h3
  have hstage : stageProvisionBase c env =
      { stageValidateUser c env with
        events := [] ++ (stageValidateUser c env).events,
        phases := Phase.provisionBase :: (stageValidateUser c env).phases } := by
    unfold stageProvisionBase
    rw [h4]
    simp only [h5, Bool.false_eq_true, if_false]
    rw [htb]
    have hc2 : ({ c with status := { c.status with baseConfigurationCompletedTime := some tb } } : Jenkins) = c := by
      rw [← htb]
    simp only [stampPhase]
    rw [hc2]
  have hvu : stageValidateUser c env =
      { stageProvisionUser c env with
        phases := Phase.validateUser :: (stageProvisionUser c env).phases } := by
    unfold stageValidateUser
    rw [huv]
  constructor
  · intro huts hupd
    have hpu : stageProvisionUser c env =
        ⟨⟨false, 0⟩, none,
          [⟨Severity.normal, reasonUserConfigurationSuccess, "User configuration completed"⟩],
          [Phase.provisionUser],
          { c with status := { c.status with userConfigurationCompletedTime := some env.now } }⟩ := by
      unfold stageProvisionUser
      rw [hur]
      simp only [Bool.false_eq_true, if_false]
      rw [huts, hupd]
      simp [stampPhase]
    rw [hrec, hstage, hvu, hpu]
    rfl
  · intro tu huts
    have hpu : stageProvisionUser c env = ⟨⟨false, 0⟩, none, [], [Phase.provisionUser], c⟩ := by
      unfold stageProvisionUser
      rw [hur]
      simp only [Bool.false_eq_true, if_false]
      rw [huts]
      have hcu : ({ c with status := { c.status with userConfigurationCompletedTime := some tu } } : Jenkins) = c := by
        rw [← huts]
      simp only [stampPhase]
      rw [hcu]
    rw [hrec, hstage, hvu, hpu]
    rfl

/-- A Jenkins object whose spec has an empty image field. -/
def emptyImageJenkins : Jenkins :=
  { sampleJenkins none none with spec := { sampleSpec with masterImage := "" } }

/-- Like `happyEnv`, but base provisioning is still in progress and asks
for a requeue. -/
def baseBusyEnv : Env := { happyEnv with baseReconcile := .ok ⟨true, 5⟩ }

/-- A Jenkins object with a non-empty image that matches neither image
grammar. -/
def badImageJenkins : Jenkins :=
  { sampleJenkins none none with spec := { sampleSpec with masterImage := "!!!not-an-image" } }

/-- Like `happyEnv`, but both image grammars reject every string. -/
def noRegexEnv : Env := { happyEnv with imageRegexOk := fun _ => false }

/-- Like `happyEnv`, but the defaults persist hits a resource-version
conflict. -/
def conflictEnv : Env :=
  { happyEnv with defaultsUpdate := .conflict "the object has been modified" }

/-- Like `happyEnv`, but the fetch reports not-found. -/
def notFoundEnv : Env := { happyEnv with get := .notFound }

/-- Like `happyEnv`, but the seed-job ensure step reports an
unrecoverable build failure while the scripted configuration is not yet
done. -/
def unrecovStuckEnv : Env :=
  { happyEnv with ensureOutcome := .errUnrecoverable, groovyEnsure := fun _ => .ok false }

/-- Like `happyEnv`, but the seed-job ensure step reports an
unrecoverable build failure (scripted configuration reports done). -/
def unrecovDoneEnv : Env := { happyEnv with ensureOutcome := .errUnrecoverable }

/-- Claim C1: the seed-job ensure step maps the delegated outcome to the
control decision exactly as specified — done (no error) proceeds to the
scripted-configuration step, a pending build and a recoverable build
failure requeue after a fixed 10-second delay with nil error, an
unrecoverable build failure yields no requeue and nil error, and any
other error propagates to the caller; when the outcome is done the user
reconcile requeues after 10 seconds exactly as the ensure step decided
for pending/recoverable outcomes. -/
theorem C1_seed_job_retry_mapping :
    ensureSeedJobs (.ok true) = .ok ⟨false, 0⟩ ∧
    ensureSeedJobs (.ok false) = .ok ⟨true, 10⟩ ∧
    ensureSeedJobs .errBuildFailed = .ok ⟨true, 10⟩ ∧
    ensureSeedJobs .errUnrecoverable = .ok ⟨false, 0⟩ ∧
    (∀ m, ensureSeedJobs (.errOther m) = .error (GoErr.other m)) ∧
    (∀ env : Env, env.ensureOutcome = .ok true → (userReconcile env).2 = true) ∧
    (∀ env : Env, env.ensureOutcome = .errBuildFailed →
      (userReconcile env).1 = .ok ⟨true, 10⟩ ∧ (userReconcile env).2 = false) ∧
    (∀ (env : Env) (m : String), env.ensureOutcome = .errOther m →
      (userReconcile env).1 = .error (GoErr.other m)) := by
    refine ⟨rfl, rfl, rfl, rfl, fun m => rfl, ?_, ?_, ?_⟩
    · intro env h
      unfold userReconcile
      rw [h]
      rfl
    · intro env h
      unfold userReconcile
      rw [h]
      exact ⟨rfl, rfl⟩
    · intro env m h
      unfold userReconcile
      rw [h]
      rfl

/-- Claim C1 witness: the mapping evaluated at concrete environments. -/
theorem C1_seed_job_retry_mapping_witness :
    (userReconcile happyEnv).2 = true ∧
    (userReconcile { happyEnv with ensureOutcome := .errBuildFailed }).1 = .ok ⟨true, 10⟩ ∧
    (userReconcile { happyEnv with ensureOutcome := .errOther "boom" }).1 =
      .error (GoErr.other "boom") :=
  ⟨C1_seed_job_retry_mapping.2.2.2.2.2.1 happyEnv rfl,
   (C1_seed_job_retry_mapping.2.2.2.2.2.2.1 { happyEnv with ensureOutcome := .errBuildFailed } rfl).1,
   C1_seed_job_retry_mapping.2.2.2.2.2.2.2 { happyEnv with ensureOutcome := .errOther "boom" } "boom" rfl⟩

/-- Claim C2 counterexample: a desired-state object with an empty image
field, reconciled in an environment where the defaulting persist
succeeds and base provisioning is still in progress, yields a pass that
emits no notification at all and requeues — the empty image is defaulted
before validation ever runs, contradicting the claimed
validation-failure notification and non-requeue. -/
theorem C2_counterexample :
    emptyImageJenkins.spec.masterImage = "" ∧
    (reconcile emptyImageJenkins baseBusyEnv).error = none ∧
    (reconcile emptyImageJenkins baseBusyEnv).events = [] ∧
    (reconcile emptyImageJenkins baseBusyEnv).result.requeue = true := by
  refine ⟨rfl, ?_, ?_, ?_⟩ <;> rfl

/-- Claim C2 (amended): an empty image field is replaced by the
documented default before validation, so the defaulted image is never
empty and an empty image alone never produces the validation-failure
outcome; the validation-failure outcome — no error, one warning
validation-failure notification, no requeue — occurs exactly when the
defaulted spec fails base validation. -/
theorem C2_amended_empty_image_defaulted :
    (∀ s : JenkinsSpec, (setDefaultsSpec s).1.masterImage ≠ "") ∧
    (∀ (c : Jenkins) (env : Env), env.get = .success →
      ((setDefaultsSpec c.spec).2 = true → env.defaultsUpdate = .success) →
      baseValidate env (setDefaultsSpec c.spec).1 = false →
      reconcile c env =
        ⟨⟨false, 0⟩, none,
          [⟨Severity.warning, reasonCRValidationFailure, "Base CR validation failed"⟩],
          [Phase.fetch, Phase.defaults, Phase.validateBase],
          { c with spec := (setDefaultsSpec c.spec).1 }⟩) := by
  constructor
  · intro s
    unfold setDefaultsSpec
    rcases h1 : (s.masterImage.length == 0)
    · simp only [h1, Bool.false_eq_true, if_false]
      intro heq
      rw [heq] at h1
      simp at h1
    · simp only [h1, if_true]
      intro heq
      exact absurd heq (by decide)
  · intro c env h1 h2 h3
    unfold reconcile
    rw [h1]
    unfold stageDefaults
    have hvb : stageValidateBase { c with spec := (setDefaultsSpec c.spec).1 } env =
        ⟨⟨false, 0⟩, none,
          [⟨Severity.warning, reasonCRValidationFailure, "Base CR validation failed"⟩],
          [Phase.validateBase], { c with spec := (setDefaultsSpec c.spec).1 }⟩ := by
      unfold stageValidateBase
      rw [show baseValidate env ({ c with spec := (setDefaultsSpec c.spec).1 } : Jenkins).spec = false from h3]
      simp
    rcases hch : (setDefaultsSpec c.spec).2
    · simp only [hch, Bool.false_eq_true, if_false]
      rw [hvb]
    · simp only [hch, if_true]
      rw [h2 hch, hvb]

/-- Claim C2 amended witness: a non-empty invalid image produces exactly
the validation-failure outcome, and defaulting keeps the sample image
non-empty. -/
theorem C2_amended_empty_image_defaulted_witness :
    reconcile badImageJenkins noRegexEnv =
      ⟨⟨false, 0⟩, none,
        [⟨Severity.warning, reasonCRValidationFailure, "Base CR validation failed"⟩],
        [Phase.fetch, Phase.defaults, Phase.validateBase],
        { badImageJenkins with spec := (setDefaultsSpec badImageJenkins.spec).1 }⟩ ∧
    (setDefaultsSpec sampleSpec).1.masterImage ≠ "" :=
  ⟨C2_amended_empty_image_defaulted.2 badImageJenkins noRegexEnv rfl (fun _ => rfl) rfl,
   C2_amended_empty_image_defaulted.1 sampleSpec⟩

/-- Counting a reason distributes over appended notification lists. -/
theorem countReason_append (a b : List Event) (r : String) :
    countReason (a ++ b) r = countReason a r + countReason b r := by
  simp [countReason, List.filter_append]

/-- With the base phase already stamped, base provisioning passes through
to user validation, emitting nothing and leaving the object unchanged. -/
theorem stageProvisionBase_stamped (c : Jenkins) (env : Env) (rb : RResult) (tb : Nat)
    (h4 : env.baseReconcile = .ok rb) (h5 : rb.requeue = false)
    (htb : c.status.baseConfigurationCompletedTime = some tb) :
    stageProvisionBase c env =
      { stageValidateUser c env with
        events := [] ++ (stageValidateUser c env).events,
        phases := Phase.provisionBase :: (stageValidateUser c env).phases } := by
  unfold stageProvisionBase
  rw [h4]
  simp only [h5, Bool.false_eq_true, if_false]
  rw [htb]
  have hc2 : ({ c with status := { c.status with baseConfigurationCompletedTime := some tb } } : Jenkins) = c := by
    rw [← htb]
  simp only [stampPhase]
  rw [hc2]

/-- With the base phase not yet stamped and a successful status persist,
base provisioning stamps the current time and emits the single base
success notification before user validation runs on the stamped object. -/
theorem stageProvisionBase_fresh (c : Jenkins) (env : Env) (rb : RResult)
    (h4 : env.baseReconcile = .ok rb) (h5 : rb.requeue = false)
    (htb : c.status.baseConfigurationCompletedTime = none)
    (hupd : env.statusUpdateBase = .success) :
    stageProvisionBase c env =
      { stageValidateUser { c with status := { c.status with baseConfigurationCompletedTime := some env.now } } env with
        events := [⟨Severity.normal, reasonBaseConfigurationSuccess, "Base configuration completed"⟩]
          ++ (stageValidateUser { c with status := { c.status with baseConfigurationCompletedTime := some env.now } } env).events,
        phases := Phase.provisionBase ::
          (stageValidateUser { c with status := { c.status with baseConfigurationCompletedTime := some env.now } } env).phases } := by
  unfold stageProvisionBase
  rw [h4]
  simp only [h5, Bool.false_eq_true, if_false]
  rw [htb, hupd]
  simp only [stampPhase]

/-- Claim C3: phase-completion marking is idempotent — an already-stamped
phase is left unchanged and fires nothing, an unset phase is stamped
with the current time and fires exactly once on a successful persist, so
two calls in sequence fire then do not fire with the stored timestamp
unchanged by the second; at the reconcile level, a pass reaching the
base completion step keeps an existing timestamp and emits no base
success notification, while a first completion stamps the current time
and emits exactly one. -/
theorem C3_mark_once_idempotent :
    (∀ (t now : Nat) (upd : UpdateOutcome) (r m : String),
      stampPhase (some t) now upd r m = .ok (some t, [], false)) ∧
    (∀ (now : Nat) (r m : String),
      stampPhase none now .success r m = .ok (some now, [⟨Severity.normal, r, m⟩], true)) ∧
    (∀ (n1 n2 : Nat) (upd : UpdateOutcome) (r m : String),
      stampPhase none n1 .success r m = .ok (some n1, [⟨Severity.normal, r, m⟩], true) ∧
      stampPhase (some n1) n2 upd r m = .ok (some n1, [], false)) ∧
    (∀ (c : Jenkins) (env : Env), ReachesBaseStamp c env →
      (∀ t, c.status.baseConfigurationCompletedTime = some t →
        (reconcile c env).obj.status.baseConfigurationCompletedTime = some t ∧
        countReason (reconcile c env).events reasonBaseConfigurationSuccess = 0) ∧
      (c.status.baseConfigurationCompletedTime = none → env.statusUpdateBase = .success →
        (reconcile c env).obj.status.baseConfigurationCompletedTime = some env.now ∧
        countReason (reconcile c env).events reasonBaseConfigurationSuccess = 1)) := by
  refine ⟨fun t now upd r m => rfl, fun now r m => rfl, fun n1 n2 upd r m => ⟨rfl, rfl⟩, ?_⟩
  rintro c env ⟨h1, h2, h3, rb, h4, h5⟩
  have hrec := reconcile_reach c env h1 h2 h3
  constructor
  · intro t ht
    rw [hrec, stageProvisionBase_stamped c env rb t h4 h5 ht]
    constructor
    · rw [show ∀ o : ROut, ∀ e p, ({ o with events := e, phases := p } : ROut).obj = o.obj from fun _ _ _ => rfl]
      rw [stageValidateUser_obj_base]
      exact ht
    · simp only [List.nil_append]
      exact stageValidateUser_count_base c env
  · intro ht hupd
    rw [hrec, stageProvisionBase_fresh c env rb h4 h5 ht hupd]
    constructor
    · rw [show ∀ o : ROut, ∀ e p, ({ o with events := e, phases := p } : ROut).obj = o.obj from fun _ _ _ => rfl]
      rw [stageValidateUser_obj_base]
    · rw [countReason_append, stageValidateUser_count_base]
      decide

/-- Claim C3 witness: first completion fires once and stamps the clock;
a second pass on the stamped object fires nothing and keeps the stamp;
the stamp primitive evaluated at concrete arguments. -/
theorem C3_mark_once_idempotent_witness :
    (reconcile (sampleJenkins none none) happyEnv).obj.status.baseConfigurationCompletedTime = some 7 ∧
    countReason (reconcile (sampleJenkins none none) happyEnv).events reasonBaseConfigurationSuccess = 1 ∧
    (reconcile (sampleJenkins (some 3) none) happyEnv).obj.status.baseConfigurationCompletedTime = some 3 ∧
    countReason (reconcile (sampleJenkins (some 3) none) happyEnv).events reasonBaseConfigurationSuccess = 0 ∧
    stampPhase (some 1) 2 .success "BaseConfigurationSuccess" "Base configuration completed" =
      .ok (some 1, [], false) := by
  have hA := (C3_mark_once_idempotent.2.2.2 (sampleJenkins none none) happyEnv
    ⟨rfl, by decide, by decide, ⟨⟨false, 0⟩, rfl, rfl⟩⟩).2 rfl rfl
  have hB := (C3_mark_once_idempotent.2.2.2 (sampleJenkins (some 3) none) happyEnv
    ⟨rfl, by decide, by decide, ⟨⟨false, 0⟩, rfl, rfl⟩⟩).1 3 rfl
  exact ⟨hA.1, hA.2, hB.1, hB.2,
    (C3_mark_once_idempotent.2.2.1 1 2 .success "BaseConfigurationSuccess" "Base configuration completed").2⟩

/-- Claim C4: the phases of every pass form an initial segment of the
canonical order fetch, defaults, validate base, provision base, validate
user, provision user; a not-found fetch terminates done with no error
and runs nothing else; and the user phases run only if any needed
defaulting persisted, base validation passed on the defaulted spec, and
base provisioning completed without requeue. -/
theorem C4_phase_ordering :
    (∀ (c : Jenkins) (env : Env), initialSegOf (reconcile c env).phases phaseOrder = true) ∧
    (∀ (c : Jenkins) (env : Env), env.get = .notFound →
      reconcile c env = ⟨⟨false, 0⟩, none, [], [Phase.fetch], c⟩) ∧
    (∀ (c : Jenkins) (env : Env),
      (Phase.validateUser ∈ (reconcile c env).phases ∨
        Phase.provisionUser ∈ (reconcile c env).phases) →
      ((setDefaultsSpec c.spec).2 = true → env.defaultsUpdate = .success) ∧
      baseValidate env (setDefaultsSpec c.spec).1 = true ∧
      ∃ rb, env.baseReconcile = .ok rb ∧ rb.requeue = false) := by
  refine ⟨?_, ?_, ?_⟩
  · intro c env
    unfold reconcile
    rcases env.get with _ | _ | e
    · exact initialSegOf_cons Phase.fetch (stageDefaults_seg c env)
    · show initialSegOf [Phase.fetch] phaseOrder = true
      decide
    · show initialSegOf [Phase.fetch] phaseOrder = true
      decide
  · intro c env h
    unfold reconcile
    rw [h]
  · intro c env h
    unfold reconcile at h
    rcases hg : env.get with _ | _ | e
    · rw [hg] at h
      simp only [List.mem_cons] at h
      apply stageDefaults_mem c env
      rcases h with (h | h) | (h | h)
      · exact absurd h (by decide)
      · exact Or.inl h
      · exact absurd h (by decide)
      · exact Or.inr h
    · rw [hg] at h
      simp at h
    · rw [hg] at h
      simp at h

/-- Claim C4 witness: the not-found short-circuit and the user-phase
preconditions evaluated at concrete inputs. -/
theorem C4_phase_ordering_witness :
    reconcile (sampleJenkins none none) notFoundEnv =
      ⟨⟨false, 0⟩, none, [], [Phase.fetch], sampleJenkins none none⟩ ∧
    (((setDefaultsSpec (sampleJenkins none none).spec).2 = true →
        happyEnv.defaultsUpdate = .success) ∧
      baseValidate happyEnv (setDefaultsSpec (sampleJenkins none none).spec).1 = true ∧
      ∃ rb, happyEnv.baseReconcile = .ok rb ∧ rb.requeue = false) :=
  ⟨C4_phase_ordering.2.1 (sampleJenkins none none) notFoundEnv rfl,
   C4_phase_ordering.2.2 (sampleJenkins none none) happyEnv (by decide)⟩

/-- A Jenkins object with one seed job whose private-key reference names
a secret the store does not have. -/
def missingSecretJenkins : Jenkins :=
  { sampleJenkins none none with spec := { sampleSpec with
      seedJobs := [⟨"deploy", "git@github.com:x/y.git", some ⟨"deploy-keys", "ssh-key"⟩⟩] } }

/-- A Jenkins object with one semantically invalid seed job (empty id)
followed by a valid one. -/
def mixedSeedJenkins : Jenkins :=
  { sampleJenkins none none with spec := { sampleSpec with
      seedJobs := [⟨"", "https://github.com/a/b.git", none⟩,
                   ⟨"jobs", "https://github.com/c/d.git", none⟩] } }

/-- Claim C5: a private-key reference to a non-existent secret makes the
user-configuration Validate return valid false with a nil error — when
the store never fails other than not-found, a missing referenced secret
yields the ok-false verdict, and a non-nil error implies some
declaration's secret lookup hit a store failure other than not-found. -/
theorem C5_missing_secret_is_invalid_not_error :
    (∀ (store : String → String → SecretGetResult) (pk : String → Bool) (j : Jenkins),
      j.spec.seedJobs.all (sjStoreOk store j.ns) = true →
      (∃ sj ∈ j.spec.seedJobs, ∃ ref, sj.privateKeyRef = some ref ∧
        store j.ns ref.name = .notFound) →
      userValidate store pk j = .ok false) ∧
    (∀ (store : String → String → SecretGetResult) (pk : String → Bool) (j : Jenkins)
        (e : String),
      userValidate store pk j = .error e →
      ∃ sj ∈ j.spec.seedJobs, ∃ ref, sj.privateKeyRef = some ref ∧
        store j.ns ref.name = .storeError e) := by
  constructor
  · rintro store pk j hall ⟨sj, hmem, ref, href, hnf⟩
    have hok : seedJobOk store pk j.ns sj = false := by
      unfold seedJobOk
      rw [href]
      simp [hnf]
    unfold userValidate validateSeedJobs
    rw [validateSeedJobsLoop_eq_ok store pk j.ns _ true hall]
    rcases hb : j.spec.seedJobs.all (seedJobOk store pk j.ns)
    · simp [hb]
    · exfalso
      rw [List.all_eq_true] at hb
      have h2 := hb sj hmem
      rw [hok] at h2
      exact absurd h2 (by decide)
  · intro store pk j e h
    unfold userValidate validateSeedJobs at h
    rcases hl : validateSeedJobsLoop store pk j.ns j.spec.seedJobs true with e2 | v
    · rw [hl] at h
      cases h
      exact validateSeedJobsLoop_error hl
    · rw [hl] at h
      rcases v <;> simp at h

/-- Claim C5 witness: the missing-secret declaration evaluated against a
store answering not-found everywhere. -/
theorem C5_missing_secret_is_invalid_not_error_witness :
    userValidate (fun _ _ => .notFound) (fun _ => true) missingSecretJenkins = .ok false :=
  C5_missing_secret_is_invalid_not_error.1 (fun _ _ => .notFound) (fun _ => true)
    missingSecretJenkins (by decide)
    ⟨⟨"deploy", "git@github.com:x/y.git", some ⟨"deploy-keys", "ssh-key"⟩⟩,
      by decide, ⟨"deploy-keys", "ssh-key"⟩, rfl, rfl⟩

/-- Claim C6: when the secret store never hard-fails, user validation
returns a nil error and its verdict is exactly the conjunction of the
per-declaration checks over every declaration — non-empty identifier, a
private-key reference whenever the repository URL contains the git-at
marker, and any present reference resolving to an existing secret whose
named key is non-empty and passes the private-key parse-and-validate
check — so one invalid declaration never stops evaluation of the rest. -/
theorem C6_verdict_is_conjunction (store : String → String → SecretGetResult)
    (pk : String → Bool) (j : Jenkins)
    (h : j.spec.seedJobs.all (sjStoreOk store j.ns) = true) :
    userValidate store pk j = .ok (j.spec.seedJobs.all (seedJobOk store pk j.ns)) := by
  unfold userValidate validateSeedJobs
  rw [validateSeedJobsLoop_eq_ok store pk j.ns _ true h]
  rcases hb : j.spec.seedJobs.all (seedJobOk store pk j.ns) <;> simp [hb]

/-- Claim C6 witness: a list with an invalid first declaration still
evaluates to the conjunction (false) without an error. -/
theorem C6_verdict_is_conjunction_witness :
    userValidate (fun _ _ => .notFound) (fun _ => true) mixedSeedJenkins = .ok false := by
  have h := C6_verdict_is_conjunction (fun _ _ => .notFound) (fun _ => true)
    mixedSeedJenkins (by decide)
  rw [h]
  rfl

/-- Claim C7 counterexample: at a concrete conflict the top-level
Reconcile does return an immediate requeue with nil error, but its log
output is non-empty — the conflict message is written to the log at warn
verbosity, so the retry is not silent and the conflict is surfaced to
logs, contradicting the claim. -/
theorem C7_counterexample :
    (reconcile emptyImageJenkins conflictEnv).error =
      some (GoErr.conflict "the object has been modified") ∧
    (topReconcile emptyImageJenkins conflictEnv).logs ≠ [] ∧
    (topReconcile emptyImageJenkins conflictEnv).result = ⟨true, 0⟩ ∧
    (topReconcile emptyImageJenkins conflictEnv).error = none := by
  refine ⟨rfl, ?_, rfl, rfl⟩
  decide

/-- Claim C7 (amended): whenever the inner pass returns a
resource-version-conflict error, the top-level Reconcile returns
Requeue true with no delay and a nil error — the conflict is not
propagated to the caller and not logged with the reconcile-failure
wording, but its message is logged at warn verbosity (the retry is not
silent). -/
theorem C7_amended_conflict_immediate_retry (c : Jenkins) (env : Env) (e : GoErr)
    (h : (reconcile c env).error = some e) (hc : e.isConflict = true) :
    (topReconcile c env).result = ⟨true, 0⟩ ∧
    (topReconcile c env).error = none ∧
    (topReconcile c env).logs = [e.message] := by
  have heq : topReconcile c env =
      ⟨⟨true, 0⟩, none, [e.message], (reconcile c env).events,
        (reconcile c env).phases, (reconcile c env).obj⟩ := by
    unfold topReconcile
    simp [h, hc]
  rw [heq]
  exact ⟨rfl, rfl, rfl⟩

/-- Claim C7 amended witness: the conflict case evaluated at a concrete
input. -/
theorem C7_amended_conflict_immediate_retry_witness :
    (topReconcile emptyImageJenkins conflictEnv).result = ⟨true, 0⟩ ∧
    (topReconcile emptyImageJenkins conflictEnv).error = none ∧
    (topReconcile emptyImageJenkins conflictEnv).logs = ["the object has been modified"] :=
  C7_amended_conflict_immediate_retry emptyImageJenkins conflictEnv
    (GoErr.conflict "the object has been modified") rfl rfl

/-- Like `happyEnv`, but the base status persist hits a conflict. -/
def conflictStatusEnv : Env :=
  { happyEnv with statusUpdateBase := .conflict "status conflict" }

/-- Claim C8: the success notification of a first-ever phase completion
is emitted only when the status persist succeeds — a failing persist
makes the stamp return the persist's error with no notification, any
notification out of the stamp implies a successful persist of a
previously unset timestamp, and at the reconcile level a conflicting
base status persist makes the pass return that error with no base
success notification and the cluster object unchanged, so the step is
retried on the next pass. -/
theorem C8_stamp_persist_before_notify :
    (∀ (now : Nat) (r m msg : String),
      stampPhase none now (.conflict msg) r m = .error (GoErr.conflict msg) ∧
      stampPhase none now (.otherError msg) r m = .error (GoErr.other msg)) ∧
    (∀ (ts : Option Nat) (now : Nat) (upd : UpdateOutcome) (r m : String)
        (ts2 : Option Nat) (evs : List Event) (f : Bool),
      stampPhase ts now upd r m = .ok (ts2, evs, f) → evs ≠ [] →
      upd = .success ∧ ts = none ∧ evs = [⟨Severity.normal, r, m⟩]) ∧
    (∀ (c : Jenkins) (env : Env), ReachesBaseStamp c env →
      c.status.baseConfigurationCompletedTime = none →
      ∀ msg, env.statusUpdateBase = .conflict msg →
        (reconcile c env).error = some (GoErr.conflict msg) ∧
        countReason (reconcile c env).events reasonBaseConfigurationSuccess = 0 ∧
        (reconcile c env).obj = c) := by
  refine ⟨fun now r m msg => ⟨rfl, rfl⟩, ?_, ?_⟩
  · intro ts now upd r m ts2 evs f h hne
    rcases ts with _ | t
    · rcases upd with _ | u | u
      · unfold stampPhase at h
        cases h
        exact ⟨rfl, rfl, rfl⟩
      · exact absurd h (by simp [stampPhase])
      · exact absurd h (by simp [stampPhase])
    · exfalso
      unfold stampPhase at h
      cases h
      exact hne rfl
  · rintro c env ⟨h1, h2, h3, rb, h4, h5⟩ hts msg hupd
    have hrec := reconcile_reach c env h1 h2 h3
    have hstage : stageProvisionBase c env =
        ⟨⟨false, 0⟩, some (GoErr.conflict msg), [], [Phase.provisionBase], c⟩ := by
      unfold stageProvisionBase
      rw [h4]
      simp only [h5, Bool.false_eq_true, if_false]
      rw [hts, hupd]
      simp [stampPhase]
    rw [hrec, hstage]
    exact ⟨rfl, rfl, rfl⟩

/-- Claim C8 witness: a conflicting base status persist evaluated at a
concrete input, plus the stamp primitive's failure case. -/
theorem C8_stamp_persist_before_notify_witness :
    (reconcile (sampleJenkins none none) conflictStatusEnv).error =
      some (GoErr.conflict "status conflict") ∧
    countReason (reconcile (sampleJenkins none none) conflictStatusEnv).events
      reasonBaseConfigurationSuccess = 0 ∧
    (reconcile (sampleJenkins none none) conflictStatusEnv).obj = sampleJenkins none none ∧
    stampPhase none 5 (.conflict "x") "r" "m" = .error (GoErr.conflict "x") := by
  have h := C8_stamp_persist_before_notify.2.2 (sampleJenkins none none) conflictStatusEnv
    ⟨rfl, by decide, by decide, ⟨⟨false, 0⟩, rfl, rfl⟩⟩ rfl "status conflict" rfl
  exact ⟨h.1, h.2.1, h.2.2, (C8_stamp_persist_before_notify.1 5 "r" "m" "x").1⟩

/-- Claim C9 counterexample: with the seed-job ensure step reporting an
unrecoverable failure, the pass does not terminate — it falls through to
the scripted-configuration step, and when that step is not yet done the
invocation returns requeue true after 10 seconds, contradicting the
claimed requeue false. -/
theorem C9_counterexample :
    unrecovStuckEnv.ensureOutcome = .errUnrecoverable ∧
    (reconcile (sampleJenkins (some 3) none) unrecovStuckEnv).result = ⟨true, 10⟩ ∧
    (reconcile (sampleJenkins (some 3) none) unrecovStuckEnv).error = none :=
  ⟨rfl, rfl, rfl⟩

/-- Claim C9 (amended): after an unrecoverable seed-job failure the
ensure step itself yields no requeue and no error, and the pass proceeds
to the scripted-configuration step rather than terminating; when that
step reports done (and the status persist succeeds) the invocation
returns requeue false with no error, and every subsequent invocation
against the unchanged spec and outcomes reaches the same fixed object —
the controller schedules no automatic retry. -/
theorem C9_amended_unrecoverable_no_requeue (c : Jenkins) (env : Env) (rb : RResult)
    (tb : Nat) (dat : List (String × String))
    (h1 : env.get = .success) (h2 : (setDefaultsSpec c.spec).2 = false)
    (h3 : baseValidate env c.spec = true)
    (h4 : env.baseReconcile = .ok rb) (h5 : rb.requeue = false)
    (htb : c.status.baseConfigurationCompletedTime = some tb)
    (huv : userValidate env.secretStore env.pkOracle c = .ok true)
    (hens : env.ensureOutcome = .errUnrecoverable)
    (hg1 : env.groovyConfigure = none) (hg2 : env.configMapGet = .ok dat)
    (hg3 : env.groovyEnsure dat = .ok true)
    (huts : c.status.userConfigurationCompletedTime = none)
    (hupd : env.statusUpdateUser = .success) :
    ensureSeedJobs env.ensureOutcome = .ok ⟨false, 0⟩ ∧
    (reconcile c env).result = ⟨false, 0⟩ ∧
    (reconcile c env).error = none ∧
    (∀ n, reconcileIter env (n + 1) c =
      { c with status := { c.status with userConfigurationCompletedTime := some env.now } }) := by
  have hens2 : ensureSeedJobs env.ensureOutcome = .ok ⟨false, 0⟩ := by
    rw [hens]
    rfl
  have hur : (userReconcile env).1 = .ok ⟨false, 0⟩ := by
    unfold userReconcile
    rw [hens2]
    unfold ensureUserConfiguration
    simp [hg1, hg2, hg3]
  have hud := reconcile_user_done c env rb tb h1 h2 h3 h4 h5 htb huv hur
  have hfirst := hud.1 huts hupd
  have hudU := reconcile_user_done
    { c with status := { c.status with userConfigurationCompletedTime := some env.now } }
    env rb tb h1 h2 h3 h4 h5 htb huv hur
  have hsecond := hudU.2 env.now rfl
  have hfix : ∀ k, reconcileIter env k
      { c with status := { c.status with userConfigurationCompletedTime := some env.now } } =
      { c with status := { c.status with userConfigurationCompletedTime := some env.now } } := by
    intro k
    induction k with
    | zero => rfl
    | succ k ih =>
      rw [reconcileIter, hsecond]
      exact ih
  refine ⟨hens2, ?_, ?_, ?_⟩
  · rw [hfirst]
  · rw [hfirst]
  · intro n
    rw [show reconcileIter env (n + 1) c = reconcileIter env n (reconcile c env).obj from rfl]
    rw [hfirst]
    exact hfix n

/-- Claim C9 amended witness: the unrecoverable-with-done-scripted-step
scenario evaluated at a concrete input, iterated four times. -/
theorem C9_amended_unrecoverable_no_requeue_witness :
    (reconcile (sampleJenkins (some 3) none) unrecovDoneEnv).result = ⟨false, 0⟩ ∧
    (reconcile (sampleJenkins (some 3) none) unrecovDoneEnv).error = none ∧
    reconcileIter unrecovDoneEnv 4 (sampleJenkins (some 3) none) =
      { sampleJenkins (some 3) none with status :=
          { (sampleJenkins (some 3) none).status with
              userConfigurationCompletedTime := some 7 } } := by
  have h := C9_amended_unrecoverable_no_requeue (sampleJenkins (some 3) none) unrecovDoneEnv
    ⟨false, 0⟩ 3 [] rfl (by decide) (by decide) rfl rfl rfl rfl rfl rfl rfl rfl rfl rfl
  exact ⟨h.2.1, h.2.2.1, h.2.2.2 3⟩

/-- Claim C10: the constant named for user-configuration success is
bound to the string BaseConfigurationFailure, so the first-ever user
completion emits a normal-severity notification whose reason code reads
as a base-configuration failure. -/
theorem C10_user_success_reason_is_base_failure :
    reasonUserConfigurationSuccess = "BaseConfigurationFailure" ∧
    (∀ (now : Nat) (m : String),
      stampPhase none now .success reasonUserConfigurationSuccess m =
        .ok (some now, [⟨Severity.normal, "BaseConfigurationFailure", m⟩], true)) ∧
    (∀ (c : Jenkins) (env : Env) (rb : RResult) (tb : Nat),
      env.get = .success → (setDefaultsSpec c.spec).2 = false →
      baseValidate env c.spec = true →
      env.baseReconcile = .ok rb → rb.requeue = false →
      c.status.baseConfigurationCompletedTime = some tb →
      userValidate env.secretStore env.pkOracle c = .ok true →
      (userReconcile env).1 = .ok ⟨false, 0⟩ →
      c.status.userConfigurationCompletedTime = none →
      env.statusUpdateUser = .success →
      (reconcile c env).events =
        [⟨Severity.normal, "BaseConfigurationFailure", "User configuration completed"⟩]) := by
  refine ⟨rfl, fun now m => rfl, ?_⟩
  intro c env rb tb h1 h2 h3 h4 h5 htb huv hur huts hupd
  rw [(reconcile_user_done c env rb tb h1 h2 h3 h4 h5 htb huv hur).1 huts hupd]
  rfl

/-- Claim C10 witness: the first user completion evaluated at a concrete
input carries the BaseConfigurationFailure reason code. -/
theorem C10_user_success_reason_is_base_failure_witness :
    (reconcile (sampleJenkins (some 3) none) happyEnv).events =
      [⟨Severity.normal, "BaseConfigurationFailure", "User configuration completed"⟩] :=
  C10_user_success_reason_is_base_failure.2.2 (sampleJenkins (some 3) none) happyEnv
    ⟨false, 0⟩ 3 rfl (by decide) (by decide) rfl rfl rfl rfl rfl rfl rfl

end JenkinsOp
